import Mathlib

/-!
# tgsconvert: the conversion pipeline of `main.go`

A shallow embedding of the pure and effectful parts of `src/main.go`
(`isCompatible`, `calculateDimensions`, `convertVideo`, `downloadFile`, the body
of the update loop) together with the pieces of the Go standard library they
rest on (`fmt.Sscanf` for the format `"%dx%d"`, `strconv.ParseInt`,
`strings.ToLower`, `strings.HasSuffix`, `path/filepath` on Unix).

Conventions.
* A Go `string` is modelled by a Lean `String`, i.e. by its sequence of runes;
  all separators, digits and extensions the program looks at are ASCII.
* Go's `int` is the 64-bit two's-complement integer; values are Lean `Int`s and
  every arithmetic result is wrapped explicitly.
* A Go runtime panic is the `.error` side of `Except String`.
* Calls that leave the process (Telegram, HTTP, the file system, `ffprobe`,
  `ffmpeg`) take their outcome from a `World` record and are recorded, in
  order, in a list of `Effect`s.
-/

deriving instance DecidableEq for Except

namespace Tgsconvert

/-! ## Go `int` arithmetic -/

/-- Two's-complement wrap of an integer into the range of a 64-bit `int`. -/
def wrapInt64 (x : Int) : Int := (x + 2 ^ 63) % 2 ^ 64 - 2 ^ 63

/-- Go `a * b` on `int`. -/
def mulInt (a b : Int) : Int := wrapInt64 (a * b)

/-- Go `a / b` on `int`: a zero divisor is a runtime panic, the quotient is
truncated toward zero. -/
def divInt (a b : Int) : Except String Int :=
  if b = 0 then .error "runtime error: integer divide by zero"
  else .ok (wrapInt64 (Int.tdiv a b))

/-! ## `fmt.Sscanf(dimensions, "%dx%d", &width, &height)` -/

/-- The errors `fmt.Sscanf` can return for the format `"%dx%d"`. -/
inductive ScanError where
  | eof
  | unexpectedEOF
  | unexpectedNewline
  | inputDoesNotMatchFormat
  | expectedInteger
  | invalidNumber
  | valueOutOfRange
  deriving DecidableEq, Repr

/-- The limit `hugeWid` of `fmt`: a scan reads at most this many runes. -/
def hugeWid : Nat := 2 ^ 30

/-- The table `space` of `fmt/scan.go`. -/
def space : List (Nat × Nat) :=
  [(0x0009, 0x000d), (0x0020, 0x0020), (0x0085, 0x0085), (0x00a0, 0x00a0),
   (0x1680, 0x1680), (0x2000, 0x200a), (0x2028, 0x2029), (0x202f, 0x202f),
   (0x205f, 0x205f), (0x3000, 0x3000)]

/-- The loop of `isSpace` over the table. -/
def isSpaceLoop : List (Nat × Nat) → Nat → Bool
  | [], _ => false
  | rng :: rest, rx =>
    if rx < rng.1 then false
    else if rx ≤ rng.2 then true
    else isSpaceLoop rest rx

/-- The function `isSpace` of `fmt/scan.go`. -/
def isSpace (r : Char) : Bool :=
  if r.toNat ≥ 2 ^ 16 then false else isSpaceLoop space r.toNat

/-- The method `ss.SkipSpace` with `nlIsSpace = false` (the setting of `Sscanf`):
the remaining input, or the error it raises. -/
def SkipSpace : List Char → Except ScanError (List Char)
  | [] => .ok []
  | r :: rest =>
    if r = '\r' ∧ rest.head? = some '\n' then SkipSpace rest
    else if r = '\n' then .error .unexpectedNewline
    else if isSpace r = false then .ok (r :: rest)
    else SkipSpace rest

/-- The constant `decimalDigits`. -/
def decimalDigits : List Char := ['0', '1', '2', '3', '4', '5', '6', '7', '8', '9']

/-- The constant `sign`. -/
def sign : List Char := ['+', '-']

/-- The method `ss.accept`: consume the next rune into the buffer when it is one
of `ok`. Returns whether it did, the buffer and the remaining input. -/
def accept (ok buf : List Char) : List Char → Bool × List Char × List Char
  | [] => (false, buf, [])
  | r :: rest => if r ∈ ok then (true, buf ++ [r], rest) else (false, buf, r :: rest)

/-- The loop `for s.accept(digits) {}` of `scanNumber`. -/
def acceptAll (ok : List Char) : List Char → List Char → List Char × List Char
  | buf, [] => (buf, [])
  | buf, r :: rest => if r ∈ ok then acceptAll ok (buf ++ [r]) rest else (buf, r :: rest)

/-- The method `ss.scanNumber(digits, false)`: the token and the remaining input. -/
def scanNumber (digits buf input : List Char) : Except ScanError (List Char × List Char) :=
  match input with
  | [] => .error .eof
  | _ :: _ =>
    match accept digits buf input with
    | (false, _, _) => .error .expectedInteger
    | (true, buf1, rest) => .ok (acceptAll digits buf1 rest)

/-- The largest `uint64`. -/
def maxUint64 : Nat := 2 ^ 64 - 1

/-- The loop of `strconv.ParseUint(s, 10, 64)` with accumulator `n`:
`none` is a syntax error, `some none` a range error. -/
def ParseUintLoop : List Char → Nat → Option (Option Nat)
  | [], n => some (some n)
  | c :: cs, n =>
    if '0'.toNat ≤ c.toNat ∧ c.toNat ≤ '9'.toNat then
      let d := c.toNat - '0'.toNat
      if n ≥ maxUint64 / 10 + 1 then some none
      else
        let n1 := n * 10 + d
        if n1 > maxUint64 then some none else ParseUintLoop cs n1
    else none

/-- The function `strconv.ParseInt(s, 10, 64)`. -/
def ParseInt (s : List Char) : Except ScanError Int :=
  match s with
  | [] => .error .invalidNumber
  | c :: rest =>
    let neg := decide (c = '-')
    let body := if c = '+' ∨ c = '-' then rest else s
    if body = [] then .error .invalidNumber
    else
      match ParseUintLoop body 0 with
      | none => .error .invalidNumber
      | some r =>
        let un := r.getD maxUint64
        if neg = false ∧ un ≥ 2 ^ 63 then .error .valueOutOfRange
        else if neg = true ∧ un > 2 ^ 63 then .error .valueOutOfRange
        else .ok (if neg then -(un : Int) else (un : Int))

/-- The method `ss.scanInt('d', 64)`: the value and the remaining input. -/
def scanInt (input : List Char) : Except ScanError (Int × List Char) :=
  match SkipSpace input with
  | .error e => .error e
  | .ok [] => .error .eof
  | .ok (r :: rest) =>
    match scanNumber decimalDigits (accept sign [] (r :: rest)).2.1
        (accept sign [] (r :: rest)).2.2 with
    | .error e => .error e
    | .ok (tok, rest1) =>
      match ParseInt tok with
      | .error e => .error e
      | .ok i => .ok (i, rest1)

/-- What `fmt.Sscanf(_, "%dx%d", &width, &height)` leaves behind: the two
operands (zero unless stored into) and the returned error. -/
structure ScanResult where
  width : Int
  height : Int
  err : Option ScanError
  deriving DecidableEq, Repr

/-- The call `fmt.Sscanf(str, "%dx%d", &width, &height)` with `width` and
`height` initially zero: `doScanf` unrolled over the format, which is the verb
`%d`, the literal `x` and the verb `%d`. -/
def Sscanf (str : String) : ScanResult :=
  match SkipSpace (str.data.take hugeWid) with
  | .error e => ⟨0, 0, some e⟩
  | .ok in1 =>
    match scanInt in1 with
    | .error e => ⟨0, 0, some e⟩
    | .ok (width, in2) =>
      match in2 with
      | [] => ⟨width, 0, some .unexpectedEOF⟩
      | c :: in3 =>
        if c ≠ 'x' then ⟨width, 0, some .inputDoesNotMatchFormat⟩
        else
          match SkipSpace in3 with
          | .error e => ⟨width, 0, some e⟩
          | .ok in4 =>
            match scanInt in4 with
            | .error e => ⟨width, 0, some e⟩
            | .ok (height, _) => ⟨width, height, none⟩

/-! ## `calculateDimensions` -/

/-- The function `calculateDimensions` of `main.go`. -/
def calculateDimensions (dimensions : String) : Except String (Int × Int) :=
  let r := Sscanf dimensions
  if r.err ≠ none then .ok (r.width, r.height)
  else if r.width > r.height then
    match divInt (mulInt r.height 512) r.width with
    | .error p => .error p
    | .ok newHeight => .ok (512, newHeight)
  else
    match divInt (mulInt r.width 512) r.height with
    | .error p => .error p
    | .ok newWidth => .ok (newWidth, 512)

/-- The first step of the scan on its own: the leading integer of the input,
when `%d` scans one. -/
def leadingInt (str : String) : Option Int :=
  match SkipSpace (str.data.take hugeWid) with
  | .error _ => none
  | .ok in1 =>
    match scanInt in1 with
    | .error _ => none
    | .ok (width, _) => some width

namespace ProgramWip

/-- The function `calculateDimensions` of `program-wip/main.go`. -/
def calculateDimensions (dimensions : String) : Except String (Int × Int) :=
  let r := Sscanf dimensions
  if r.err ≠ none then .ok (r.width, r.height)
  else if r.width > r.height then
    match divInt (mulInt r.height 512) r.width with
    | .error p => .error p
    | .ok newHeight => .ok (512, newHeight)
  else
    match divInt (mulInt r.width 512) r.height with
    | .error p => .error p
    | .ok newWidth => .ok (newWidth, 512)

end ProgramWip

/-! ## `isCompatible` -/

/-- The function `unicode.ToLower`. The case tables that decide the runes above
`MaxASCII` are the argument `table`. -/
def unicodeToLower (table : Char → Char) (r : Char) : Char :=
  if r.toNat ≤ 0x7F then
    if 'A'.toNat ≤ r.toNat ∧ r.toNat ≤ 'Z'.toNat then Char.ofNat (r.toNat + ('a'.toNat - 'A'.toNat))
    else r
  else table r

/-- The function `strings.ToLower`: every rune mapped by `unicode.ToLower`. -/
def ToLower (table : Char → Char) (s : String) : String :=
  ⟨s.data.map (unicodeToLower table)⟩

/-- The function `strings.HasSuffix`:
`len(s) >= len(suffix) && s[len(s)-len(suffix):] == suffix`. -/
def HasSuffix (s suffix : String) : Bool :=
  decide (s.data.length ≥ suffix.data.length) &&
    decide (s.data.drop (s.data.length - suffix.data.length) = suffix.data)

/-- The variable `compatibleFormats`. -/
def compatibleFormats : List String := [".mp4", ".mov", ".avi", ".mkv", ".webm"]

/-- The loop of `isCompatible`: `compatible` starts `false` and the first format
that is a suffix sets it and leaves the loop. -/
def isCompatibleLoop (lowercaseFilePath : String) : List String → Bool
  | [] => false
  | format :: rest =>
    if HasSuffix lowercaseFilePath format then true
    else isCompatibleLoop lowercaseFilePath rest

/-- The function `isCompatible` of `main.go`. -/
def isCompatible (table : Char → Char) (filename : String) : Bool :=
  isCompatibleLoop (ToLower table filename) compatibleFormats

/-! ## `path/filepath` on Unix -/

/-- The function `os.IsPathSeparator`. -/
def IsPathSeparator (c : Char) : Bool := decide (c = '/')

/-- The loop of `filepath.Ext`, walking back from the end of the path: the
first argument is what is left of the path, reversed, the second the suffix
already walked over. -/
def extLoop : List Char → List Char → List Char
  | [], _ => []
  | c :: before, suffix =>
    if IsPathSeparator c then []
    else if c = '.' then c :: suffix
    else extLoop before (c :: suffix)

/-- The function `filepath.Ext`. -/
def Ext (path : String) : String := ⟨extLoop path.data.reverse []⟩

/-- The function `filepath.Base`. -/
def Base (path : String) : String :=
  if path.data = [] then "."
  else
    let stripped := path.data.reverse.dropWhile IsPathSeparator
    let last := (stripped.takeWhile (fun c => !IsPathSeparator c)).reverse
    if last = [] then "/" else ⟨last⟩

/-- The inner loop of the `..` case of `filepath.Clean`: from write index `w`
back to the last separator, not below `dotdot`. -/
def backtrack (out : List Char) (dotdot : Nat) : Nat → Nat
  | 0 => 0
  | w + 1 =>
    if w + 1 > dotdot ∧ IsPathSeparator (out.getD (w + 1) '/') = false then backtrack out dotdot w
    else w + 1

/-- The main loop of `filepath.Clean`: `rest` is the path from index `r` on,
`out` the buffer written so far. Every round consumes input, so a fuel of the
length of the path is enough. -/
def cleanLoop (rooted : Bool) : Nat → List Char → List Char → Nat → List Char
  | 0, _, out, _ => out
  | _ + 1, [], out, _ => out
  | fuel + 1, c :: rest, out, dotdot =>
    if IsPathSeparator c then cleanLoop rooted fuel rest out dotdot
    else if c = '.' ∧ (rest = [] ∨ rest.head?.any IsPathSeparator) then
      cleanLoop rooted fuel rest out dotdot
    else if c = '.' ∧ rest.head? = some '.' ∧
        (rest.tail = [] ∨ rest.tail.head?.any IsPathSeparator) then
      if out.length > dotdot then
        cleanLoop rooted fuel rest.tail (out.take (backtrack out dotdot (out.length - 1))) dotdot
      else if rooted = false then
        let out1 := (if out.length > 0 then out ++ ['/'] else out) ++ ['.', '.']
        cleanLoop rooted fuel rest.tail out1 out1.length
      else cleanLoop rooted fuel rest.tail out dotdot
    else
      let out1 :=
        if (rooted = true ∧ out.length ≠ 1) ∨ (rooted = false ∧ out.length ≠ 0) then out ++ ['/']
        else out
      cleanLoop rooted fuel ((c :: rest).dropWhile (fun c => !IsPathSeparator c))
        (out1 ++ (c :: rest).takeWhile (fun c => !IsPathSeparator c)) dotdot

/-- The function `filepath.Clean`. -/
def Clean (path : String) : String :=
  match path.data with
  | [] => "."
  | c :: rest =>
    let out :=
      if IsPathSeparator c then cleanLoop true (rest.length + 1) rest ['/'] 1
      else cleanLoop false (rest.length + 2) (c :: rest) [] 0
    if out = [] then "." else ⟨out⟩

/-- The function `strings.Join(elems, "/")`. -/
def joinSep : List String → String
  | [] => ""
  | [e] => e
  | e :: rest => e ++ "/" ++ joinSep rest

/-- The function `filepath.Join`: the elements from the first non-empty one on,
joined by the separator and cleaned. -/
def Join : List String → String
  | [] => ""
  | e :: rest => if e.data = [] then Join rest else Clean (joinSep (e :: rest))

/-! ## The effectful part: `downloadFile`, `convertVideo`, the update loop -/

/-- The calls that leave the process, as they are recorded. -/
inductive Effect where
  | sendMessage (chatID : Int) (text : String)
  | sendVideo (chatID : Int) (path : String)
  | getFile (fileID : String)
  | httpGet (link : String)
  | create (path : String)
  | copy (path : String)
  | lookPath (file : String)
  | stat (path : String)
  | ffprobe (args : List String)
  | ffmpeg (args : List String)
  | remove (path : String)
  | printf (text : String)
  deriving DecidableEq, Repr

/-- The outcomes of the calls that leave the process. -/
structure World where
  /-- The method `bot.GetFile`, followed by `file.Link`: the link, or failure. -/
  getFile : String → Option String
  /-- The call `http.Get` on a link: whether it succeeds. -/
  httpGet : String → Bool
  /-- The call `os.Create` on a path: whether it succeeds. -/
  create : String → Bool
  /-- The call `io.Copy` into the file at a path: whether it succeeds. -/
  copy : String → Bool
  /-- The call `exec.LookPath`: whether the executable is found. -/
  lookPath : String → Bool
  /-- The call `os.Stat`: whether the path exists. -/
  stat : String → Bool
  /-- Running `ffprobe` on an input file: its standard output, or failure. -/
  ffprobe : String → Option String
  /-- Running `ffmpeg` with an argument list: whether it exits with status zero. -/
  ffmpeg : List String → Bool

/-- The function `downloadFile` of `main.go`: the calls made and the error
returned. -/
def downloadFile (w : World) (fileID filePath : String) : List Effect × Option String :=
  match w.getFile fileID with
  | none => ([.getFile fileID], some "failed to get file")
  | some link =>
    if w.httpGet link = false then
      ([.getFile fileID, .httpGet link], some "failed to download file")
    else if w.create filePath = false then
      ([.getFile fileID, .httpGet link, .create filePath], some "failed to create output file")
    else if w.copy filePath = false then
      ([.getFile fileID, .httpGet link, .create filePath, .copy filePath],
        some "failed to save file")
    else ([.getFile fileID, .httpGet link, .create filePath, .copy filePath], none)

/-- The function `getVideoDimensions` of `main.go`. -/
def getVideoDimensions (w : World) (inputFile : String) : List Effect × Option String :=
  ([.ffprobe ["-v", "error", "-select_streams", "v:0", "-show_entries", "stream=width,height",
      "-of", "csv=s=x:p=0", inputFile]], w.ffprobe inputFile)

/-- The verb `%d` of `fmt.Sprintf` on an `int`. -/
def formatInt (i : Int) : String :=
  if i < 0 then "-" ++ toString i.natAbs else toString i.natAbs

/-- The value of `filenameWithoutExt` in `convertVideo`. -/
def filenameWithoutExt (inputFile : String) : String :=
  ⟨(Base inputFile).data.take ((Base inputFile).length - (Ext (Base inputFile)).length)⟩

/-- The value of `outputFile` in `convertVideo`. -/
def outputFile (inputFile : String) : String :=
  Join [".", filenameWithoutExt inputFile ++ ".webm"]

/-- The argument list of the `ffmpeg` command of `convertVideo`. -/
def ffmpegArgs (inputFile : String) (newWidth newHeight : Int) (outputFile : String) :
    List String :=
  ["-y", "-i", inputFile,
   "-vf", "scale=" ++ formatInt newWidth ++ ":" ++ formatInt newHeight,
   "-c:v", "libvpx-vp9", "-an", "-r", "30", "-t", "3", "-loop", "0",
   "-s", formatInt newWidth ++ "x" ++ formatInt newHeight,
   "-crf", "36", "-b:v", "256k", outputFile]

/-- The function `convertVideo` of `main.go`: the calls made, and either the
panic that ends the process or the returned pair of path and error. -/
def convertVideo (w : World) (inputFile : String) :
    List Effect × Except String (String × Option String) :=
  if w.lookPath "ffmpeg" = false then
    ([.lookPath "ffmpeg"], .ok ("", some "ffmpeg is not installed"))
  else if w.stat inputFile = false then
    ([.lookPath "ffmpeg", .stat inputFile], .ok ("", some "input file does not exist"))
  else
    match getVideoDimensions w inputFile with
    | (probe, none) =>
      ([.lookPath "ffmpeg", .stat inputFile] ++ probe,
        .ok ("", some "failed to get video dimensions"))
    | (probe, some dimensions) =>
      match calculateDimensions dimensions with
      | .error p => ([.lookPath "ffmpeg", .stat inputFile] ++ probe, .error p)
      | .ok (newWidth, newHeight) =>
        let args := ffmpegArgs inputFile newWidth newHeight (outputFile inputFile)
        if w.ffmpeg args = false then
          ([.lookPath "ffmpeg", .stat inputFile] ++ probe ++ [.ffmpeg args],
            .ok ("", some "failed to convert video"))
        else
          ([.lookPath "ffmpeg", .stat inputFile] ++ probe ++ [.ffmpeg args],
            .ok (outputFile inputFile, none))

/-- The body of the update loop of `main` for one message that carries a
document or a video, `fileID` and `filePath` already taken from it: the calls
made, and the panic when the process ends in one. -/
def handleUpload (table : Char → Char) (w : World) (dir : String) (chatID : Int)
    (fileID filePath : String) : List Effect × Option String :=
  if isCompatible table filePath = false then
    ([.sendMessage chatID "File format not supported."], none)
  else
    match downloadFile w fileID (Join [dir, filePath]) with
    | (dl, some _) =>
      ([.sendMessage chatID "Converting video..."] ++ dl ++
        [.sendMessage chatID "Failed to download file.", .printf "failed to download file"], none)
    | (dl, none) =>
      match convertVideo w (Join [dir, filePath]) with
      | (cv, .error p) => ([.sendMessage chatID "Converting video..."] ++ dl ++ cv, some p)
      | (cv, .ok (convertedFilePath, some _)) =>
        ([.sendMessage chatID "Converting video..."] ++ dl ++ cv ++
          [.sendMessage chatID "Failed to convert video.", .printf "failed to convert video",
           .remove (Join [dir, filePath]), .remove convertedFilePath], none)
      | (cv, .ok (convertedFilePath, none)) =>
        ([.sendMessage chatID "Converting video..."] ++ dl ++ cv ++
          [.sendMessage chatID "Video converted, sending back...",
           .sendVideo chatID convertedFilePath,
           .remove (Join [dir, filePath]), .remove convertedFilePath], none)

/-- The file path the update loop takes from a video message. -/
def videoFilePath (fileID : String) : String := fileID ++ ".mp4"

/-- Whether a recorded call is an `os.Remove`. -/
def Effect.isRemove : Effect → Bool
  | .remove _ => true
  | _ => false

/-- Whether a recorded call is a run of `ffmpeg`. -/
def Effect.isFfmpeg : Effect → Bool
  | .ffmpeg _ => true
  | _ => false

/-- A world for the examples: every call succeeds, the probe prints `probe`
and `ffmpeg` exits with status zero exactly when `ffmpegOk`. -/
def sampleWorld (probe : String) (ffmpegOk : Bool) : World where
  getFile := fun fileID => some ("https://api.telegram.org/file/" ++ fileID)
  httpGet := fun _ => true
  create := fun _ => true
  copy := fun _ => true
  lookPath := fun _ => true
  stat := fun _ => true
  ffprobe := fun _ => some probe
  ffmpeg := fun _ => ffmpegOk

/-- A world in which the download breaks off while the body is copied. -/
def brokenCopyWorld : World where
  getFile := fun fileID => some ("https://api.telegram.org/file/" ++ fileID)
  httpGet := fun _ => true
  create := fun _ => true
  copy := fun _ => false
  lookPath := fun _ => true
  stat := fun _ => true
  ffprobe := fun _ => some "1920x1080\n"
  ffmpeg := fun _ => true

set_option maxRecDepth 20000

/-! ## Decimal numerals -/

theorem digitChar_mem : ∀ k, k < 10 → Nat.digitChar k ∈ decimalDigits := by decide

theorem digitChar_val : ∀ k, k < 10 → (Nat.digitChar k).toNat - '0'.toNat = k := by decide

theorem decimalDigits_range : ∀ c ∈ decimalDigits,
    '0'.toNat ≤ c.toNat ∧ c.toNat ≤ '9'.toNat := by decide

theorem toDigitsCore_mem (fuel : Nat) : ∀ (n : Nat) (ds : List Char),
    (∀ c ∈ ds, c ∈ decimalDigits) → ∀ c ∈ Nat.toDigitsCore 10 fuel n ds, c ∈ decimalDigits := by
  induction fuel with
  | zero => intro n ds h; simpa [Nat.toDigitsCore] using h
  | succ f ih =>
    intro n ds h
    have hd : ∀ c ∈ Nat.digitChar (n % 10) :: ds, c ∈ decimalDigits := by
      intro c hc
      rcases List.mem_cons.1 hc with rfl | hc
      · exact digitChar_mem _ (Nat.mod_lt _ (by decide))
      · exact h c hc
    simp only [Nat.toDigitsCore]
    split
    · exact hd
    · exact ih _ _ hd

theorem toDigits_mem (w : Nat) : ∀ c ∈ Nat.toDigits 10 w, c ∈ decimalDigits :=
  toDigitsCore_mem _ _ _ (by simp)

theorem toDigitsCore_ne_nil (fuel n : Nat) (ds : List Char) (h : 0 < fuel) :
    Nat.toDigitsCore 10 fuel n ds ≠ [] := by
  induction fuel generalizing n ds with
  | zero => omega
  | succ f ih =>
    simp only [Nat.toDigitsCore]
    split
    · simp
    · cases f with
      | zero => simp [Nat.toDigitsCore]
      | succ g => exact ih _ _ (by omega)

theorem toDigits_ne_nil (w : Nat) : Nat.toDigits 10 w ≠ [] :=
  toDigitsCore_ne_nil _ _ _ (by omega)

theorem ParseUintLoop_toDigitsCore (fuel : Nat) : ∀ (n : Nat) (ds : List Char),
    n < fuel → n ≤ maxUint64 →
    ParseUintLoop (Nat.toDigitsCore 10 fuel n ds) 0 = ParseUintLoop ds n := by
  induction fuel with
  | zero => intro n ds h; omega
  | succ f ih =>
    intro n ds hf hn
    have hr := decimalDigits_range _ (digitChar_mem (n % 10) (Nat.mod_lt _ (by decide)))
    have hv := digitChar_val (n % 10) (Nat.mod_lt _ (by decide))
    have hstep : ParseUintLoop (Nat.digitChar (n % 10) :: ds) (n / 10) = ParseUintLoop ds n := by
      simp only [maxUint64] at hn
      have h1 : ¬ (n / 10 ≥ maxUint64 / 10 + 1) := by simp only [maxUint64]; omega
      have h2 : ¬ (n > maxUint64) := by simp only [maxUint64]; omega
      have h3 : n / 10 * 10 + n % 10 = n := by omega
      simp only [ParseUintLoop, hr, and_self, if_true, h1, if_false, hv, h3, h2]
    simp only [Nat.toDigitsCore]
    split
    · rename_i h0
      rw [← hstep, h0]
    · rename_i h0
      rw [ih _ _ (by omega) (by omega), hstep]

theorem ParseUintLoop_toDigits (w : Nat) (hw : w ≤ maxUint64) :
    ParseUintLoop (Nat.toDigits 10 w) 0 = some (some w) := by
  rw [Nat.toDigits, ParseUintLoop_toDigitsCore _ _ _ (by omega) hw]
  rfl

theorem toString_data (w : Nat) : (toString w).data = Nat.toDigits 10 w := rfl

theorem toDigits_length (w : Nat) (hw : w < 2 ^ 63) : (Nat.toDigits 10 w).length ≤ 19 := by
  have h : (Nat.repr w).length ≤ 19 :=
    Nat.repr_length w 19 (by decide) (lt_of_lt_of_le hw (by norm_num))
  exact h

/-! ## Scanning a decimal numeral -/

theorem decimalDigits_plain : ∀ c ∈ decimalDigits,
    c ≠ '\r' ∧ c ≠ '\n' ∧ isSpace c = false ∧ c ∉ sign := by decide

theorem SkipSpace_digit (c : Char) (rest : List Char) (hc : c ∈ decimalDigits) :
    SkipSpace (c :: rest) = .ok (c :: rest) := by
  obtain ⟨h1, h2, h3, _⟩ := decimalDigits_plain c hc
  simp [SkipSpace, h1, h2, h3]

theorem acceptAll_append (ok : List Char) : ∀ (D buf rest : List Char),
    (∀ c ∈ D, c ∈ ok) → (∀ c ∈ rest.head?, c ∉ ok) →
    acceptAll ok buf (D ++ rest) = (buf ++ D, rest) := by
  intro D
  induction D with
  | nil =>
    intro buf rest _ hrest
    cases rest with
    | nil => simp [acceptAll]
    | cons r rs =>
      have : r ∉ ok := hrest r (by simp)
      simp [acceptAll, this]
  | cons d D ih =>
    intro buf rest hD hrest
    have hd : d ∈ ok := hD d (by simp)
    have := ih (buf ++ [d]) rest (fun c hc => hD c (by simp [hc])) hrest
    simp [acceptAll, hd, this]

theorem ParseInt_toDigits (w : Nat) (hw : w < 2 ^ 63) :
    ParseInt (Nat.toDigits 10 w) = .ok (w : Int) := by
  have hmem := toDigits_mem w
  have hne := toDigits_ne_nil w
  have hp := ParseUintLoop_toDigits w (by simp only [maxUint64]; omega)
  cases hD : Nat.toDigits 10 w with
  | nil => exact absurd hD hne
  | cons d D =>
    rw [hD] at hmem hp
    have hd : d ∈ decimalDigits := hmem d (by simp)
    have hs : d ∉ sign := (decimalDigits_plain d hd).2.2.2
    have h1 : d ≠ '+' := fun h => hs (by simp [h, sign])
    have h2 : d ≠ '-' := fun h => hs (by simp [h, sign])
    have h3 : w < 9223372036854775808 := by omega
    simp [ParseInt, h1, h2, hp, h3]

theorem scanInt_toDigits (w : Nat) (rest : List Char) (hw : w < 2 ^ 63)
    (hrest : ∀ c ∈ rest.head?, c ∉ decimalDigits) :
    scanInt (Nat.toDigits 10 w ++ rest) = .ok ((w : Int), rest) := by
  have hmem := toDigits_mem w
  have hne := toDigits_ne_nil w
  have hp := ParseInt_toDigits w hw
  cases hD : Nat.toDigits 10 w with
  | nil => exact absurd hD hne
  | cons d D =>
    rw [hD] at hmem hp
    have hd : d ∈ decimalDigits := hmem d (by simp)
    have hs : d ∉ sign := (decimalDigits_plain d hd).2.2.2
    have hacc := acceptAll_append decimalDigits D [d] rest
      (fun c hc => hmem c (by simp [hc])) hrest
    simp only [List.singleton_append] at hacc
    simp [scanInt, SkipSpace_digit d _ hd, accept, hs, scanNumber, hd, hacc, hp]

/-- Scanning `<w>x<h>` followed by anything that does not start with a digit. -/
theorem Sscanf_numerals (w h : Nat) (tail : List Char) (hw : w < 2 ^ 63) (hh : h < 2 ^ 63)
    (htail : ∀ c ∈ tail.head?, c ∉ decimalDigits) (hlen : tail.length ≤ 2 ^ 29) :
    Sscanf ⟨Nat.toDigits 10 w ++ 'x' :: (Nat.toDigits 10 h ++ tail)⟩ = ⟨w, h, none⟩ := by
  have hl1 := toDigits_length w hw
  have hl2 := toDigits_length h hh
  have htake : List.take hugeWid (Nat.toDigits 10 w ++ 'x' :: (Nat.toDigits 10 h ++ tail))
      = Nat.toDigits 10 w ++ 'x' :: (Nat.toDigits 10 h ++ tail) := by
    apply List.take_of_length_le
    simp only [List.length_append, List.length_cons, hugeWid]
    omega
  have hx : ∀ c ∈ ('x' :: (Nat.toDigits 10 h ++ tail)).head?, c ∉ decimalDigits := by
    intro c hc
    simp only [List.head?_cons, Option.mem_def, Option.some.injEq] at hc
    subst hc
    decide
  have h1 := scanInt_toDigits w _ hw hx
  have h2 := scanInt_toDigits h tail hh htail
  have hmem := toDigits_mem w
  have hmem2 := toDigits_mem h
  have hs1 : SkipSpace (Nat.toDigits 10 w ++ 'x' :: (Nat.toDigits 10 h ++ tail))
      = .ok (Nat.toDigits 10 w ++ 'x' :: (Nat.toDigits 10 h ++ tail)) := by
    cases hD : Nat.toDigits 10 w with
    | nil => exact absurd hD (toDigits_ne_nil w)
    | cons d D =>
      rw [hD] at hmem
      exact SkipSpace_digit d _ (hmem d (by simp))
  have hs2 : SkipSpace (Nat.toDigits 10 h ++ tail) = .ok (Nat.toDigits 10 h ++ tail) := by
    cases hD : Nat.toDigits 10 h with
    | nil => exact absurd hD (toDigits_ne_nil h)
    | cons d D =>
      rw [hD] at hmem2
      exact SkipSpace_digit d _ (hmem2 d (by simp))
  simp only [Sscanf, htake, hs1, h1, hs2, h2]
  simp

/-! ## The arithmetic of `calculateDimensions` -/

theorem wrapInt64_of_range (x : Int) (h0 : -2 ^ 63 ≤ x) (h1 : x < 2 ^ 63) : wrapInt64 x = x := by
  unfold wrapInt64
  omega

theorem mulInt_natCast (a : Nat) (h : a * 512 < 2 ^ 63) : mulInt (a : Int) 512 = ((a * 512 : Nat) : Int) := by
  unfold mulInt
  rw [wrapInt64_of_range] <;> push_cast <;> omega

theorem divInt_natCast (a b : Nat) (hb : 0 < b) (ha : a < 2 ^ 63) :
    divInt (a : Int) (b : Int) = .ok ((a / b : Nat) : Int) := by
  have hb0 : (b : Int) ≠ 0 := by omega
  have hq : a / b ≤ a := Nat.div_le_self a b
  simp only [divInt, hb0, if_false]
  rw [Int.tdiv_eq_ediv (by omega) (by omega), wrapInt64_of_range]
  · norm_cast
  · have : (0 : Int) ≤ (a : Int) / (b : Int) := Int.ediv_nonneg (by omega) (by omega)
    omega
  · have : ((a : Int) / (b : Int)) = ((a / b : Nat) : Int) := by norm_cast
    rw [this]
    omega

theorem numeral_string (w h : Nat) :
    toString w ++ "x" ++ toString h = ⟨Nat.toDigits 10 w ++ 'x' :: (Nat.toDigits 10 h ++ [])⟩ := by
  apply String.ext
  simp [String.data_append, toString_data]

theorem numeral_line (w h : Nat) :
    toString w ++ "x" ++ toString h ++ "\n"
      = ⟨Nat.toDigits 10 w ++ 'x' :: (Nat.toDigits 10 h ++ ['\n'])⟩ := by
  apply String.ext
  simp [String.data_append, toString_data]

theorem calculateDimensions_of_scan (s : String) (a b : Nat)
    (hs : Sscanf s = ⟨(a : Int), (b : Int), none⟩) (ha : 0 < a) (hb : 0 < b)
    (ha512 : a * 512 < 2 ^ 63) (hb512 : b * 512 < 2 ^ 63) :
    calculateDimensions s
      = .ok (if a > b then (512, ((b * 512 / a : Nat) : Int))
             else (((a * 512 / b : Nat) : Int), 512)) := by
  have h1 := divInt_natCast (b * 512) a ha hb512
  have h2 := divInt_natCast (a * 512) b hb ha512
  simp only [calculateDimensions, hs, ne_eq, not_true_eq_false, if_false,
    mulInt_natCast a ha512, mulInt_natCast b hb512, h1, h2]
  by_cases hab : a > b
  · have : (a : Int) > (b : Int) := by exact_mod_cast hab
    simp [hab, this]
  · have : ¬ ((a : Int) > (b : Int)) := by exact_mod_cast hab
    simp [hab, this]

theorem programWip_calculateDimensions_eq (s : String) :
    ProgramWip.calculateDimensions s = calculateDimensions s := rfl

theorem Sscanf_failure (s : String) (h : (Sscanf s).err ≠ none) :
    (Sscanf s).width = (leadingInt s).getD 0 ∧ (Sscanf s).height = 0 := by
  unfold Sscanf leadingInt at *
  repeat' split at h
  all_goals first
    | exact absurd rfl h
    | simp_all

/-! ## Suffixes and `isCompatible` -/

theorem HasSuffix_iff (s suffix : String) :
    HasSuffix s suffix = true ↔ ∃ pre : String, s = pre ++ suffix := by
  unfold HasSuffix
  simp only [Bool.and_eq_true, decide_eq_true_eq]
  constructor
  · rintro ⟨_, hdrop⟩
    refine ⟨⟨s.data.take (s.data.length - suffix.data.length)⟩, ?_⟩
    apply String.ext
    have h := List.take_append_drop (s.data.length - suffix.data.length) s.data
    rw [hdrop] at h
    rw [String.data_append]
    exact h.symm
  · rintro ⟨pre, rfl⟩
    simp [String.data_append]

theorem isCompatibleLoop_iff (lower : String) (formats : List String) :
    isCompatibleLoop lower formats = true ↔ ∃ format ∈ formats, HasSuffix lower format = true := by
  induction formats with
  | nil => simp [isCompatibleLoop]
  | cons f fs ih =>
    by_cases hf : HasSuffix lower f = true
    · simp [isCompatibleLoop, hf]
    · simp [isCompatibleLoop, hf, ih]

/-! ## Paths -/

theorem extLoop_suffix : ∀ (before suffix : List Char),
    extLoop before suffix = [] ∨ ∃ pre, before.reverse ++ suffix = pre ++ extLoop before suffix := by
  intro before
  induction before with
  | nil => intro suffix; left; rfl
  | cons c before ih =>
    intro suffix
    by_cases h1 : IsPathSeparator c = true
    · left; simp [extLoop, h1]
    · by_cases h2 : c = '.'
      · right
        refine ⟨before.reverse, ?_⟩
        subst h2
        simp [extLoop, h1]
      · rcases ih (c :: suffix) with h | ⟨pre, h⟩
        · left; simp [extLoop, h1, h2, h]
        · right
          refine ⟨pre, ?_⟩
          simp only [extLoop, h1, h2, if_false, Bool.false_eq_true]
          rw [← h]
          simp

theorem filenameWithoutExt_append_Ext (inputFile : String) :
    filenameWithoutExt inputFile ++ Ext (Base inputFile) = Base inputFile := by
  apply String.ext
  simp only [filenameWithoutExt, Ext, String.data_append, String.length]
  rcases extLoop_suffix (Base inputFile).data.reverse [] with h | ⟨pre, h⟩
  · simp [h]
  · simp only [List.reverse_reverse, List.append_nil] at h
    generalize extLoop (Base inputFile).data.reverse [] = e at h
    rw [h]
    simp

theorem Base_no_separator (path : String) (h : Base path ≠ "/") :
    ∀ c ∈ (Base path).data, IsPathSeparator c = false := by
  unfold Base at h ⊢
  by_cases hne : path.data = []
  · simp only [hne, if_true]
    decide
  · simp only [hne, if_false] at h ⊢
    by_cases hl : (List.takeWhile (fun c => !IsPathSeparator c)
        (List.dropWhile IsPathSeparator path.data.reverse)).reverse = []
    · simp only [hl, if_true] at h
      exact absurd rfl h
    · simp only [hl, if_false]
      intro c hc
      simp only [List.mem_reverse] at hc
      have := List.mem_takeWhile_imp hc
      simpa using this

theorem lastElement_nil_iff (l : List Char) :
    List.takeWhile (fun c => !IsPathSeparator c) (List.dropWhile IsPathSeparator l) = []
      ↔ ∀ c ∈ l, c = '/' := by
  constructor
  · intro h
    have hd : List.dropWhile IsPathSeparator l = [] := by
      cases hx : List.dropWhile IsPathSeparator l with
      | nil => rfl
      | cons x xs =>
        have hnot := List.head_dropWhile_not IsPathSeparator l (by rw [hx]; simp)
        simp only [hx, List.head_cons] at hnot
        rw [hx] at h
        simp [List.takeWhile, hnot] at h
    rw [List.dropWhile_eq_nil_iff] at hd
    intro c hc
    simpa [IsPathSeparator] using hd c hc
  · intro h
    have hd : List.dropWhile IsPathSeparator l = [] := by
      rw [List.dropWhile_eq_nil_iff]
      intro c hc
      simp [IsPathSeparator, h c hc]
    rw [hd]
    rfl

theorem Base_eq_root_iff (path : String) :
    Base path = "/" ↔ path.data ≠ [] ∧ ∀ c ∈ path.data, c = '/' := by
  unfold Base
  by_cases hne : path.data = []
  · simp only [hne, if_true, ne_eq, not_true_eq_false, false_and, iff_false]
    decide
  · simp only [hne, if_false, ne_eq, not_false_eq_true, true_and]
    have hiff := lastElement_nil_iff path.data.reverse
    simp only [List.mem_reverse] at hiff
    by_cases hl : (List.takeWhile (fun c => !IsPathSeparator c)
        (List.dropWhile IsPathSeparator path.data.reverse)).reverse = []
    · simp only [hl, if_true, true_iff]
      exact hiff.1 (List.reverse_eq_nil_iff.1 hl)
    · simp only [hl, if_false]
      constructor
      · intro h
        have hd := congrArg String.data h
        simp only at hd
        have hmem : '/' ∈ List.takeWhile (fun c => !IsPathSeparator c)
            (List.dropWhile IsPathSeparator path.data.reverse) := by
          rw [← List.mem_reverse, hd]
          decide
        have := List.mem_takeWhile_imp hmem
        simp [IsPathSeparator] at this
      · intro h
        exact absurd (List.reverse_eq_nil_iff.2 (hiff.2 h)) hl
theorem filenameWithoutExt_no_separator (inputFile : String) (h : Base inputFile ≠ "/") :
    ∀ c ∈ (filenameWithoutExt inputFile).data, IsPathSeparator c = false := by
  intro c hc
  exact Base_no_separator inputFile h c (List.mem_of_mem_take hc)

theorem cleanLoop_element (fuel : Nat) (name : List Char)
    (hsep : ∀ c ∈ name, IsPathSeparator c = false) (hlen : 3 ≤ name.length) :
    cleanLoop false (fuel + 3) ('.' :: '/' :: name) [] 0 = name := by
  have htake : name.takeWhile (fun c => !IsPathSeparator c) = name := by
    rw [List.takeWhile_eq_self_iff]
    intro c hc
    simp [hsep c hc]
  have hdrop : name.dropWhile (fun c => !IsPathSeparator c) = [] := by
    rw [List.dropWhile_eq_nil_iff]
    intro c hc
    simp [hsep c hc]
  have hdot : IsPathSeparator '.' = false := by decide
  have hslash : IsPathSeparator '/' = true := by decide
  match name, hsep, hlen, htake, hdrop with
  | a :: b :: c :: rest, hsep, _, htake, hdrop =>
    have ha : IsPathSeparator a = false := hsep a (by simp)
    have hb : IsPathSeparator b = false := hsep b (by simp)
    have hc : IsPathSeparator c = false := hsep c (by simp)
    have step1 : cleanLoop false (fuel + 3) ('.' :: '/' :: a :: b :: c :: rest) [] 0
        = cleanLoop false (fuel + 2) ('/' :: a :: b :: c :: rest) [] 0 := by
      simp [cleanLoop, hdot, hslash]
    have step2 : cleanLoop false (fuel + 2) ('/' :: a :: b :: c :: rest) [] 0
        = cleanLoop false (fuel + 1) (a :: b :: c :: rest) [] 0 := by
      simp [cleanLoop, hslash]
    have step3 : cleanLoop false (fuel + 1) (a :: b :: c :: rest) [] 0
        = cleanLoop false fuel [] (a :: b :: c :: rest) 0 := by
      rw [cleanLoop]
      simp only [ha, Bool.false_eq_true, if_false, List.head?_cons, Option.any_some, hb,
        List.tail_cons, hc, or_false, and_false, reduceCtorEq, hdrop, htake]
      simp
    rw [step1, step2, step3]
    cases fuel <;> rfl

theorem Clean_dot_slash (name : List Char)
    (hsep : ∀ c ∈ name, IsPathSeparator c = false) (hlen : 3 ≤ name.length) :
    Clean ⟨'.' :: '/' :: name⟩ = ⟨name⟩ := by
  have h := cleanLoop_element name.length name hsep hlen
  have hne : name ≠ [] := by
    intro h0
    rw [h0] at hlen
    simp at hlen
  have hdot : IsPathSeparator '.' = false := by decide
  simp only [Clean, hdot, Bool.false_eq_true, if_false, List.length_cons]
  rw [h]
  simp [hne]

theorem outputFile_eq (inputFile : String) (h : Base inputFile ≠ "/") :
    outputFile inputFile = filenameWithoutExt inputFile ++ ".webm" := by
  have hsep := filenameWithoutExt_no_separator inputFile h
  have hname : ∀ c ∈ (filenameWithoutExt inputFile ++ ".webm").data,
      IsPathSeparator c = false := by
    intro c hc
    rw [String.data_append, List.mem_append] at hc
    rcases hc with hc | hc
    · exact hsep c hc
    · revert c
      decide
  have hlen : 3 ≤ (filenameWithoutExt inputFile ++ ".webm").data.length := by
    rw [String.data_append, List.length_append]
    have : (".webm" : String).data.length = 5 := by decide
    omega
  have hjoin : joinSep [".", filenameWithoutExt inputFile ++ ".webm"]
      = ⟨'.' :: '/' :: (filenameWithoutExt inputFile ++ ".webm").data⟩ := by
    apply String.ext
    simp [joinSep, String.data_append]
  have hdot : ¬ (".".data = []) := by decide
  simp only [outputFile, Join, hdot, if_false]
  rw [hjoin, Clean_dot_slash _ hname hlen]

theorem buffer_ne_empty (out : List Char) :
    (if out = [] then "." else (⟨out⟩ : String)) ≠ "" := by
  split_ifs with h
  · decide
  · intro h0
    exact h (congrArg String.data h0)

theorem Clean_ne_empty (path : String) : Clean path ≠ "" := by
  unfold Clean
  split
  · decide
  · exact buffer_ne_empty _

theorem outputFile_ne_empty (inputFile : String) : outputFile inputFile ≠ "" := by
  have hdot : ¬ (".".data = []) := by decide
  simp only [outputFile, Join, hdot, if_false]
  exact Clean_ne_empty _

/-! ## Traces -/

theorem downloadFile_no_remove (w : World) (fileID filePath : String) :
    (downloadFile w fileID filePath).1.filter Effect.isRemove = [] := by
  unfold downloadFile
  split
  · rfl
  · split_ifs <;> rfl

theorem convertVideo_no_remove (w : World) (inputFile : String) :
    (convertVideo w inputFile).1.filter Effect.isRemove = [] := by
  unfold convertVideo getVideoDimensions
  split_ifs
  · rfl
  · rfl
  · split
    · rename_i h
      simp only [Prod.mk.injEq] at h
      simp [← h.1, Effect.isRemove]
    · rename_i h
      simp only [Prod.mk.injEq] at h
      split
      · simp [← h.1, Effect.isRemove]
      · dsimp only
        split_ifs <;> simp [← h.1, Effect.isRemove]

theorem convertVideo_error_path (w : World) (inputFile p e : String)
    (h : (convertVideo w inputFile).2 = .ok (p, some e)) : p = "" := by
  unfold convertVideo at h
  split_ifs at h
  · simp at h; exact h.1.symm
  · simp at h; exact h.1.symm
  · split at h
    · simp at h; exact h.1.symm
    · split at h
      · simp at h
      · dsimp only at h
        split_ifs at h
        · simp at h; exact h.1.symm
        · simp at h

/-! ## The claims about `calculateDimensions` -/

/-- C1: on a string `<w>x<h>` of two positive decimal integers, neither of
which overflows when multiplied by 512, `calculateDimensions` returns
`(512, h*512/w)` when `w > h` and `(w*512/h, 512)` otherwise, the division
truncating; the four examples of the specification come out as stated. The
same holds with the line end the probe prints after the two numbers. -/
theorem calculateDimensions_scales (w h : Nat) (hw : 0 < w) (hh : 0 < h)
    (hw512 : w * 512 < 2 ^ 63) (hh512 : h * 512 < 2 ^ 63) :
    calculateDimensions (toString w ++ "x" ++ toString h)
        = .ok (if w > h then (512, ((h * 512 / w : Nat) : Int))
               else (((w * 512 / h : Nat) : Int), 512))
      ∧ calculateDimensions "1920x1080" = .ok (512, 288)
      ∧ calculateDimensions "1080x1920" = .ok (288, 512)
      ∧ calculateDimensions "500x500" = .ok (512, 512)
      ∧ calculateDimensions "100x300" = .ok (170, 512)
      ∧ calculateDimensions (toString w ++ "x" ++ toString h ++ "\n")
        = .ok (if w > h then (512, ((h * 512 / w : Nat) : Int))
               else (((w * 512 / h : Nat) : Int), 512)) := by
  refine ⟨?_, by decide, by decide, by decide, by decide, ?_⟩
  · apply calculateDimensions_of_scan _ w h _ hw hh hw512 hh512
    rw [numeral_string]
    exact Sscanf_numerals w h [] (by omega) (by omega) (by simp) (by simp)
  · apply calculateDimensions_of_scan _ w h _ hw hh hw512 hh512
    rw [numeral_line]
    exact Sscanf_numerals w h ['\n'] (by omega) (by omega) (by decide) (by simp)

/-- The scaling rule of C1 at a source of 1280 by 720. -/
theorem calculateDimensions_scales_witness :
    (0 < 1280 ∧ 0 < 720 ∧ 1280 * 512 < 2 ^ 63 ∧ 720 * 512 < 2 ^ 63) ∧
      calculateDimensions (toString 1280 ++ "x" ++ toString 720) = .ok (512, 288) :=
  ⟨by decide, (calculateDimensions_scales 1280 720 (by decide) (by decide)
    (by decide) (by decide)).1⟩

/-- C3, the claim as stated fails: when only the leading integer parses, the
scan has already stored it in `width`, and `calculateDimensions` returns it. -/
theorem calculateDimensions_keeps_leading_integer :
    (Sscanf "1920").err = some .unexpectedEOF
      ∧ calculateDimensions "1920" = .ok (1920, 0)
      ∧ (Sscanf "1920xabc").err = some .expectedInteger
      ∧ calculateDimensions "1920xabc" = .ok (1920, 0) := by decide

/-- C3, amended: whenever the scan of the dimension string returns an error,
`calculateDimensions` does not raise and returns `(width, 0)`, where `width` is
the leading integer when the scan got as far as storing one and `0` otherwise;
`"garbage"` and `""` give `(0, 0)`, `"1920"` and `"1920xabc"` give `(1920, 0)`. -/
theorem calculateDimensions_parse_failure (s : String) (h : (Sscanf s).err ≠ none) :
    calculateDimensions s = .ok ((leadingInt s).getD 0, 0)
      ∧ calculateDimensions "garbage" = .ok (0, 0)
      ∧ calculateDimensions "" = .ok (0, 0)
      ∧ calculateDimensions "1920" = .ok (1920, 0)
      ∧ calculateDimensions "1920xabc" = .ok (1920, 0) := by
  refine ⟨?_, by decide, by decide, by decide, by decide⟩
  obtain ⟨h1, h2⟩ := Sscanf_failure s h
  simp only [calculateDimensions, h1, h2]
  rw [if_pos h]

/-- The amended C3 at the input `1920x`, where the scan runs out of input after the literal. -/
theorem calculateDimensions_parse_failure_witness :
    (Sscanf "1920x").err ≠ none ∧ calculateDimensions "1920x" = .ok (1920, 0) :=
  ⟨by decide, (calculateDimensions_parse_failure "1920x" (by decide)).1⟩

/-- C7, the code at the failing input: `"0x0"` parses without error into a zero
width and height, and the division by the zero height is a runtime panic; a
job whose probe prints `0x0` ends the process. -/
theorem calculateDimensions_zero_panics :
    Sscanf "0x0" = ⟨0, 0, none⟩
      ∧ calculateDimensions "0x0" = .error "runtime error: integer divide by zero"
      ∧ (handleUpload id (sampleWorld "0x0\n" true) "/srv/bot" 7 "f1" "clip.mp4").2
          = some "runtime error: integer divide by zero" := by decide

/-- C9, the claim as stated fails: a source of 1000 by 1 is valid and is scaled
to a height of zero, and a source whose sides overflow when multiplied by 512
is scaled to a negative width. -/
theorem calculateDimensions_degenerate :
    Sscanf "1000x1" = ⟨1000, 1, none⟩
      ∧ calculateDimensions "1000x1" = .ok (512, 0)
      ∧ Sscanf "18014398509481984x18014398509481984"
          = ⟨18014398509481984, 18014398509481984, none⟩
      ∧ calculateDimensions "18014398509481984x18014398509481984" = .ok (-512, 512) := by
  decide

/-- C9, amended: for every parsed width `w > 0` and height `h > 0` with no
overflow of `w*512` or `h*512` and with neither side more than 512 times the
other, `calculateDimensions` returns a pair with `newWidth > 0` and
`newHeight > 0`. -/
theorem calculateDimensions_positive (s : String) (w h : Int)
    (hs : Sscanf s = ⟨w, h, none⟩) (hw : 0 < w) (hh : 0 < h)
    (hw512 : w * 512 < 2 ^ 63) (hh512 : h * 512 < 2 ^ 63)
    (hwh : w ≤ 512 * h) (hhw : h ≤ 512 * w) :
    ∃ newWidth newHeight, calculateDimensions s = .ok (newWidth, newHeight)
      ∧ 0 < newWidth ∧ 0 < newHeight := by
  lift w to ℕ using hw.le
  lift h to ℕ using hh.le
  have hw' : 0 < w := by exact_mod_cast hw
  have hh' : 0 < h := by exact_mod_cast hh
  have hw512' : w * 512 < 2 ^ 63 := by exact_mod_cast hw512
  have hh512' : h * 512 < 2 ^ 63 := by exact_mod_cast hh512
  have hwh' : w ≤ 512 * h := by exact_mod_cast hwh
  have hhw' : h ≤ 512 * w := by exact_mod_cast hhw
  rw [calculateDimensions_of_scan s w h hs hw' hh' hw512' hh512']
  by_cases hab : w > h
  · refine ⟨512, ((h * 512 / w : Nat) : Int), by simp [hab], by norm_num, ?_⟩
    have : 0 < h * 512 / w := Nat.div_pos (by omega) hw'
    exact_mod_cast this
  · refine ⟨((w * 512 / h : Nat) : Int), 512, by simp [hab], ?_, by norm_num⟩
    have : 0 < w * 512 / h := Nat.div_pos (by omega) hh'
    exact_mod_cast this

/-- The amended C9 at a source of 1920 by 1080. -/
theorem calculateDimensions_positive_witness :
    (Sscanf "1920x1080" = ⟨1920, 1080, none⟩ ∧ (0 : Int) < 1920 ∧ (0 : Int) < 1080
        ∧ (1920 : Int) * 512 < 2 ^ 63 ∧ (1080 : Int) * 512 < 2 ^ 63
        ∧ (1920 : Int) ≤ 512 * 1080 ∧ (1080 : Int) ≤ 512 * 1920)
      ∧ ∃ newWidth newHeight, calculateDimensions "1920x1080" = .ok (newWidth, newHeight)
          ∧ 0 < newWidth ∧ 0 < newHeight :=
  ⟨by decide, calculateDimensions_positive "1920x1080" 1920 1080 (by decide) (by decide)
    (by decide) (by decide) (by decide) (by decide) (by decide)⟩

/-- C10: for every parsed width `w > 0` and height `h > 0` with no overflow of
`w*512` or `h*512`, `calculateDimensions` (in `main.go` and in
`program-wip/main.go` alike) returns a pair whose side on the axis of the
longer source side (the height when `w = h`) is exactly 512 and whose other
side lies between 0 and 512 inclusive. -/
theorem calculateDimensions_longer_side (s : String) (w h : Int)
    (hs : Sscanf s = ⟨w, h, none⟩) (hw : 0 < w) (hh : 0 < h)
    (hw512 : w * 512 < 2 ^ 63) (hh512 : h * 512 < 2 ^ 63) :
    ∃ newWidth newHeight, calculateDimensions s = .ok (newWidth, newHeight)
      ∧ ProgramWip.calculateDimensions s = .ok (newWidth, newHeight)
      ∧ (w > h → newWidth = 512 ∧ 0 ≤ newHeight ∧ newHeight ≤ 512)
      ∧ (w ≤ h → newHeight = 512 ∧ 0 ≤ newWidth ∧ newWidth ≤ 512) := by
  lift w to ℕ using hw.le
  lift h to ℕ using hh.le
  have hw' : 0 < w := by exact_mod_cast hw
  have hh' : 0 < h := by exact_mod_cast hh
  have hw512' : w * 512 < 2 ^ 63 := by exact_mod_cast hw512
  have hh512' : h * 512 < 2 ^ 63 := by exact_mod_cast hh512
  rw [programWip_calculateDimensions_eq, calculateDimensions_of_scan s w h hs hw' hh' hw512' hh512']
  by_cases hab : w > h
  · have hle : h * 512 / w ≤ 512 := Nat.div_le_of_le_mul (by omega)
    refine ⟨512, ((h * 512 / w : Nat) : Int), by simp [hab], by simp [hab], ?_, ?_⟩
    · intro _
      refine ⟨rfl, by positivity, by exact_mod_cast hle⟩
    · intro hle'
      have : w ≤ h := by exact_mod_cast hle'
      omega
  · have hle : w * 512 / h ≤ 512 := Nat.div_le_of_le_mul (by omega)
    refine ⟨((w * 512 / h : Nat) : Int), 512, by simp [hab], by simp [hab], ?_, ?_⟩
    · intro hgt
      have : w > h := by exact_mod_cast hgt
      omega
    · intro _
      refine ⟨rfl, by positivity, by exact_mod_cast hle⟩

/-- The bound of C10 at a portrait source of 100 by 300, as the probe prints it. -/
theorem calculateDimensions_longer_side_witness :
    (Sscanf "100x300\n" = ⟨100, 300, none⟩ ∧ (0 : Int) < 100 ∧ (0 : Int) < 300
        ∧ (100 : Int) * 512 < 2 ^ 63 ∧ (300 : Int) * 512 < 2 ^ 63)
      ∧ ∃ newWidth newHeight, calculateDimensions "100x300\n" = .ok (newWidth, newHeight)
          ∧ ProgramWip.calculateDimensions "100x300\n" = .ok (newWidth, newHeight)
          ∧ ((100 : Int) > 300 → newWidth = 512 ∧ 0 ≤ newHeight ∧ newHeight ≤ 512)
          ∧ ((100 : Int) ≤ 300 → newHeight = 512 ∧ 0 ≤ newWidth ∧ newWidth ≤ 512) :=
  ⟨by decide, calculateDimensions_longer_side "100x300\n" 100 300 (by decide) (by decide)
    (by decide) (by decide) (by decide)⟩

/-! ## The claim about `isCompatible` -/

/-- C2: `isCompatible` returns true exactly when the lower-cased file name ends
with one of `.mp4`, `.mov`, `.avi`, `.mkv`, `.webm`, and false for every other
file name; a name ending in `.txt` and a name without extension are rejected. -/
theorem isCompatible_iff (table : Char → Char) (filename : String) :
    (isCompatible table filename = true ↔
        ∃ ext ∈ [".mp4", ".mov", ".avi", ".mkv", ".webm"],
          ∃ pre : String, ToLower table filename = pre ++ ext)
      ∧ (isCompatible table filename = false ↔
        ¬ ∃ ext ∈ [".mp4", ".mov", ".avi", ".mkv", ".webm"],
          ∃ pre : String, ToLower table filename = pre ++ ext)
      ∧ isCompatible table "CLIP.MkV" = true
      ∧ isCompatible table "notes.txt" = false
      ∧ isCompatible table "noext" = false := by
  have h : isCompatible table filename = true ↔
      ∃ ext ∈ [".mp4", ".mov", ".avi", ".mkv", ".webm"],
        ∃ pre : String, ToLower table filename = pre ++ ext := by
    unfold isCompatible
    rw [isCompatibleLoop_iff]
    simp only [HasSuffix_iff]
    rfl
  refine ⟨h, ?_, rfl, rfl, rfl⟩
  rw [← h]
  simp

/-! ## The claims about `convertVideo` and the update loop -/

/-- C4, the code on the failing path: a job that passes format validation and
whose download fails makes no call of `os.Remove` at all, so the input path is
removed zero times; when the copy of the body is what failed, the file had
already been created. -/
theorem download_failure_skips_remove (table : Char → Char) (w : World) (dir : String)
    (chatID : Int) (fileID filePath : String)
    (hc : isCompatible table filePath = true)
    (hd : (downloadFile w fileID (Join [dir, filePath])).2 ≠ none) :
    (handleUpload table w dir chatID fileID filePath).1.filter Effect.isRemove = []
      ∧ (handleUpload table w dir chatID fileID filePath).1.count
          (.remove (Join [dir, filePath])) = 0
      ∧ (handleUpload id brokenCopyWorld "/srv/bot" 7 "f1" "clip.mp4").1
          = [.sendMessage 7 "Converting video...",
             .getFile "f1", .httpGet "https://api.telegram.org/file/f1",
             .create "/srv/bot/clip.mp4", .copy "/srv/bot/clip.mp4",
             .sendMessage 7 "Failed to download file.", .printf "failed to download file"] := by
  have hnr := downloadFile_no_remove w fileID (Join [dir, filePath])
  have hfilter : (handleUpload table w dir chatID fileID filePath).1.filter Effect.isRemove
      = [] := by
    unfold handleUpload
    generalize downloadFile w fileID (Join [dir, filePath]) = r at hd hnr
    obtain ⟨dl, err⟩ := r
    cases err with
    | none => exact absurd rfl hd
    | some e =>
      simp only [hc, Bool.true_eq_false, if_false, List.filter_append, hnr]
      rfl
  refine ⟨hfilter, ?_, by decide⟩
  rw [List.count_eq_zero]
  intro hmem
  have : Effect.remove (Join [dir, filePath]) ∈
      (handleUpload table w dir chatID fileID filePath).1.filter Effect.isRemove :=
    List.mem_filter.2 ⟨hmem, rfl⟩
  rw [hfilter] at this
  exact absurd this (List.not_mem_nil _)

/-- The failing path of C4 in a world where the copy of the body breaks off. -/
theorem download_failure_skips_remove_witness :
    (isCompatible id "clip.mp4" = true
        ∧ (downloadFile brokenCopyWorld "f1" (Join ["/srv/bot", "clip.mp4"])).2 ≠ none)
      ∧ (handleUpload id brokenCopyWorld "/srv/bot" 7 "f1" "clip.mp4").1.count
          (.remove (Join ["/srv/bot", "clip.mp4"])) = 0 :=
  ⟨by decide, (download_failure_skips_remove id brokenCopyWorld "/srv/bot" 7 "f1" "clip.mp4"
    (by decide) (by decide)).2.1⟩

/-- C5, the code on the failing path: when `convertVideo` returns an error it
returns the empty string as path, so the two calls of `os.Remove` the update
loop makes are on the input path and on `""`; the output path, which is never
empty, is not among them unless it is the input path itself. With the probe
printing `1920x1080` and `ffmpeg` failing, `clip.webm` is not removed. -/
theorem failed_conversion_removes (table : Char → Char) (w : World) (dir : String)
    (chatID : Int) (fileID filePath p e : String)
    (hc : isCompatible table filePath = true)
    (hd : (downloadFile w fileID (Join [dir, filePath])).2 = none)
    (hcv : (convertVideo w (Join [dir, filePath])).2 = .ok (p, some e)) :
    (handleUpload table w dir chatID fileID filePath).1.filter Effect.isRemove
        = [.remove (Join [dir, filePath]), .remove ""]
      ∧ outputFile (Join [dir, filePath]) ≠ ""
      ∧ (handleUpload id (sampleWorld "1920x1080\n" false) "/srv/bot" 7 "f1" "clip.mp4").1
          = [.sendMessage 7 "Converting video...",
             .getFile "f1", .httpGet "https://api.telegram.org/file/f1",
             .create "/srv/bot/clip.mp4", .copy "/srv/bot/clip.mp4",
             .lookPath "ffmpeg", .stat "/srv/bot/clip.mp4",
             .ffprobe ["-v", "error", "-select_streams", "v:0", "-show_entries",
               "stream=width,height", "-of", "csv=s=x:p=0", "/srv/bot/clip.mp4"],
             .ffmpeg ["-y", "-i", "/srv/bot/clip.mp4", "-vf", "scale=512:288",
               "-c:v", "libvpx-vp9", "-an", "-r", "30", "-t", "3", "-loop", "0",
               "-s", "512x288", "-crf", "36", "-b:v", "256k", "clip.webm"],
             .sendMessage 7 "Failed to convert video.", .printf "failed to convert video",
             .remove "/srv/bot/clip.mp4", .remove ""] := by
  have hp := convertVideo_error_path w _ p e hcv
  subst hp
  have hnr := downloadFile_no_remove w fileID (Join [dir, filePath])
  have hnr2 := convertVideo_no_remove w (Join [dir, filePath])
  refine ⟨?_, outputFile_ne_empty _, by decide⟩
  unfold handleUpload
  generalize downloadFile w fileID (Join [dir, filePath]) = r at hd hnr
  generalize convertVideo w (Join [dir, filePath]) = r2 at hcv hnr2
  obtain ⟨dl, err⟩ := r
  obtain ⟨cv, res⟩ := r2
  simp only at hd hcv hnr hnr2
  subst hd hcv
  simp only [hc, Bool.true_eq_false, if_false, List.filter_append, hnr, hnr2]
  rfl

/-- The failing path of C5 in a world where `ffmpeg` exits with a non-zero status. -/
theorem failed_conversion_removes_witness :
    (isCompatible id "clip.mp4" = true
        ∧ (downloadFile (sampleWorld "1920x1080\n" false) "f1"
            (Join ["/srv/bot", "clip.mp4"])).2 = none
        ∧ (convertVideo (sampleWorld "1920x1080\n" false) (Join ["/srv/bot", "clip.mp4"])).2
            = .ok ("", some "failed to convert video"))
      ∧ (handleUpload id (sampleWorld "1920x1080\n" false) "/srv/bot" 7 "f1"
            "clip.mp4").1.filter Effect.isRemove
          = [.remove (Join ["/srv/bot", "clip.mp4"]), .remove ""] :=
  ⟨by decide, (failed_conversion_removes id (sampleWorld "1920x1080\n" false) "/srv/bot" 7 "f1"
    "clip.mp4" "" "failed to convert video" (by decide) (by decide) (by decide)).1⟩

/-- C6, the claim as stated fails: with the probe printing `garbage`,
`calculateDimensions` gives `(0, 0)` and `convertVideo` still runs `ffmpeg`,
with `scale=0:0` and `-s 0x0`; what it returns is decided by that run alone. -/
theorem convertVideo_garbage_runs_ffmpeg :
    calculateDimensions "garbage" = .ok (0, 0)
      ∧ convertVideo (sampleWorld "garbage" false) "/srv/bot/clip.mp4"
          = ([.lookPath "ffmpeg", .stat "/srv/bot/clip.mp4",
              .ffprobe ["-v", "error", "-select_streams", "v:0", "-show_entries",
                "stream=width,height", "-of", "csv=s=x:p=0", "/srv/bot/clip.mp4"],
              .ffmpeg ["-y", "-i", "/srv/bot/clip.mp4", "-vf", "scale=0:0",
                "-c:v", "libvpx-vp9", "-an", "-r", "30", "-t", "3", "-loop", "0",
                "-s", "0x0", "-crf", "36", "-b:v", "256k", "clip.webm"]],
             .ok ("", some "failed to convert video"))
      ∧ (convertVideo (sampleWorld "garbage" true) "/srv/bot/clip.mp4").2
          = .ok ("clip.webm", none) := by decide

/-- C6, amended: for every probe output that `calculateDimensions` maps to
`(0, 0)`, `convertVideo` makes no check of the dimensions: it runs `ffmpeg`
exactly once, with `scale=0:0` and `-s 0x0`, and returns an error exactly when
that run fails. -/
theorem convertVideo_zero_dimensions (w : World) (inputFile dimensions : String)
    (hlook : w.lookPath "ffmpeg" = true) (hstat : w.stat inputFile = true)
    (hprobe : w.ffprobe inputFile = some dimensions)
    (hdims : calculateDimensions dimensions = .ok (0, 0)) :
    (convertVideo w inputFile).1.filter Effect.isFfmpeg
        = [.ffmpeg ["-y", "-i", inputFile, "-vf", "scale=0:0",
            "-c:v", "libvpx-vp9", "-an", "-r", "30", "-t", "3", "-loop", "0",
            "-s", "0x0", "-crf", "36", "-b:v", "256k", outputFile inputFile]]
      ∧ ((∃ p e, (convertVideo w inputFile).2 = .ok (p, some e)) ↔
          w.ffmpeg ["-y", "-i", inputFile, "-vf", "scale=0:0",
            "-c:v", "libvpx-vp9", "-an", "-r", "30", "-t", "3", "-loop", "0",
            "-s", "0x0", "-crf", "36", "-b:v", "256k", outputFile inputFile] = false) := by
  have hargs : ffmpegArgs inputFile 0 0 (outputFile inputFile)
      = ["-y", "-i", inputFile, "-vf", "scale=0:0",
          "-c:v", "libvpx-vp9", "-an", "-r", "30", "-t", "3", "-loop", "0",
          "-s", "0x0", "-crf", "36", "-b:v", "256k", outputFile inputFile] := rfl
  simp only [convertVideo, getVideoDimensions, hlook, hstat, hprobe, hdims, hargs,
    Bool.true_eq_false, if_false]
  split_ifs with hrun
  · exact ⟨rfl, ⟨fun _ => hrun, fun _ => ⟨_, _, rfl⟩⟩⟩
  · refine ⟨rfl, ⟨?_, fun h => absurd h hrun⟩⟩
    rintro ⟨p, e, h⟩
    simp at h

/-- The amended C6 with the probe printing `garbage`. -/
theorem convertVideo_zero_dimensions_witness :
    ((sampleWorld "garbage" false).lookPath "ffmpeg" = true
        ∧ (sampleWorld "garbage" false).stat "/srv/bot/clip.mp4" = true
        ∧ (sampleWorld "garbage" false).ffprobe "/srv/bot/clip.mp4" = some "garbage"
        ∧ calculateDimensions "garbage" = .ok (0, 0))
      ∧ (convertVideo (sampleWorld "garbage" false) "/srv/bot/clip.mp4").1.filter Effect.isFfmpeg
          = [.ffmpeg ["-y", "-i", "/srv/bot/clip.mp4", "-vf", "scale=0:0",
              "-c:v", "libvpx-vp9", "-an", "-r", "30", "-t", "3", "-loop", "0",
              "-s", "0x0", "-crf", "36", "-b:v", "256k", outputFile "/srv/bot/clip.mp4"]] :=
  ⟨by decide, (convertVideo_zero_dimensions (sampleWorld "garbage" false) "/srv/bot/clip.mp4"
    "garbage" (by decide) (by decide) (by decide) (by decide)).1⟩

/-- C8: whenever `convertVideo` reaches the conversion step, with `(W, H)` what
`calculateDimensions` made of the probe output, it runs `ffmpeg` exactly once,
with the argument list `-y -i <input> -vf scale=<W>:<H> -c:v libvpx-vp9 -an
-r 30 -t 3 -loop 0 -s <W>x<H> -crf 36 -b:v 256k <output>`. The output is the
base name of the input with its final extension cut off and `.webm` put on
(`filepath.Join` turns that into `.webm` for the one base name `/`, which only
a path made of slashes, the root directory, has). A probe output of `1920x1080` gives `scale=512:288`, `-s 512x288`. -/
theorem convertVideo_ffmpeg_command (w : World) (inputFile dimensions : String) (W H : Int)
    (hlook : w.lookPath "ffmpeg" = true) (hstat : w.stat inputFile = true)
    (hprobe : w.ffprobe inputFile = some dimensions)
    (hdims : calculateDimensions dimensions = .ok (W, H)) :
    (convertVideo w inputFile).1.filter Effect.isFfmpeg
        = [.ffmpeg ["-y", "-i", inputFile,
            "-vf", "scale=" ++ formatInt W ++ ":" ++ formatInt H,
            "-c:v", "libvpx-vp9", "-an", "-r", "30", "-t", "3", "-loop", "0",
            "-s", formatInt W ++ "x" ++ formatInt H,
            "-crf", "36", "-b:v", "256k", outputFile inputFile]]
      ∧ filenameWithoutExt inputFile ++ Ext (Base inputFile) = Base inputFile
      ∧ (Base inputFile ≠ "/" → outputFile inputFile = filenameWithoutExt inputFile ++ ".webm")
      ∧ (Base inputFile = "/" → outputFile inputFile = ".webm")
      ∧ (Base inputFile = "/" ↔ inputFile.data ≠ [] ∧ ∀ c ∈ inputFile.data, c = '/')
      ∧ (convertVideo (sampleWorld "1920x1080" true) "/srv/bot/clip.mp4").1.filter
            Effect.isFfmpeg
          = [.ffmpeg ["-y", "-i", "/srv/bot/clip.mp4", "-vf", "scale=512:288",
              "-c:v", "libvpx-vp9", "-an", "-r", "30", "-t", "3", "-loop", "0",
              "-s", "512x288", "-crf", "36", "-b:v", "256k", "clip.webm"]] := by
  refine ⟨?_, filenameWithoutExt_append_Ext inputFile, outputFile_eq inputFile, ?_,
    Base_eq_root_iff inputFile, by decide⟩
  · simp only [convertVideo, getVideoDimensions, hlook, hstat, hprobe, hdims,
      Bool.true_eq_false, if_false]
    split_ifs <;> rfl
  · intro hroot
    simp only [outputFile, filenameWithoutExt, hroot]
    decide

/-- The command of C8 for a portrait source and a file name with two dots. -/
theorem convertVideo_ffmpeg_command_witness :
    ((sampleWorld "1080x1920\n" true).lookPath "ffmpeg" = true
        ∧ (sampleWorld "1080x1920\n" true).stat "/srv/bot/Clip.final.MOV" = true
        ∧ (sampleWorld "1080x1920\n" true).ffprobe "/srv/bot/Clip.final.MOV" = some "1080x1920\n"
        ∧ calculateDimensions "1080x1920\n" = .ok (288, 512))
      ∧ (convertVideo (sampleWorld "1080x1920\n" true) "/srv/bot/Clip.final.MOV").1.filter
            Effect.isFfmpeg
          = [.ffmpeg ["-y", "-i", "/srv/bot/Clip.final.MOV",
              "-vf", "scale=" ++ formatInt 288 ++ ":" ++ formatInt 512,
              "-c:v", "libvpx-vp9", "-an", "-r", "30", "-t", "3", "-loop", "0",
              "-s", formatInt 288 ++ "x" ++ formatInt 512,
              "-crf", "36", "-b:v", "256k", outputFile "/srv/bot/Clip.final.MOV"]]
      ∧ outputFile "/srv/bot/Clip.final.MOV" = "Clip.final.webm" :=
  ⟨by decide, (convertVideo_ffmpeg_command (sampleWorld "1080x1920\n" true)
    "/srv/bot/Clip.final.MOV" "1080x1920\n" 288 512 (by decide) (by decide) (by decide)
    (by decide)).1, by decide⟩

end Tgsconvert
